import Mathlib

/-!
# StreetCam: verification of the motion-triggered recording controller

A shallow embedding of the debounced recording state machine and the
per-frame session loop of `src/main.py` (the logic of `src/main_2.py`,
lines 151-181, is identical modulo how the per-frame motion boolean is
derived), together with the ROI validation of `src/main_2.py`.

External collaborators (camera, OpenCV image operations, video codecs)
are abstracted: a frame is an opaque `Nat` identifier, the motion
evidence computation (grayscale/blur/diff/threshold/contours, lines
69-85 of `main.py`) is an arbitrary function `Nat → Nat → Bool` from
(current reference image, current frame) to the motion boolean, and the
background derivation `update_background` plus ROI crop (lines 54-57 and
125) is an arbitrary function `Nat → Nat` from frame to new reference.
-/

namespace StreetCam

/-- Decision emitted by the per-frame debounce logic: `start` when a new
event clip writer is created, `stop` when the current clip writer is
released, `none` otherwise. -/
inductive Decision : Type where
  | start : Decision
  | stop : Decision
  | none : Decision
deriving DecidableEq, Repr

/-- The mutable state threaded through the main loop of `main.py`:
`clip_number` (line 35), `motion_detected` (line 36), `motion_counter`
(line 37), `no_motion_counter` (line 38), the current event-clip writer
`out` (line 60, `None` when no clip is open; a writer is identified by
the clip number it was created with), and `clipNums`, the list of clip
numbers passed to `create_new_writer` so far (observation log; the
source materialises each as a filename at line 46). -/
structure MachineState : Type where
  clip_number : Nat
  motion_detected : Bool
  motion_counter : Nat
  no_motion_counter : Nat
  out : Option Nat
  clipNums : List Nat
deriving DecidableEq, Repr

/-- Initial machine state, `main.py` lines 35-38 and 60. -/
def initState : MachineState :=
  { clip_number := 1
    motion_detected := false
    motion_counter := 0
    no_motion_counter := 0
    out := Option.none
    clipNums := [] }

/-- One frame of the debounce logic, `main.py` lines 85-108: on a motion
frame increment `motion_counter` and zero `no_motion_counter`; if the
counter now exceeds `mt` (`MOTION_THRESHOLD`) and no clip is open,
advance `clip_number`, open a writer for it and set `motion_detected`.
On a quiet frame increment `no_motion_counter`; if it now exceeds `nt`
(`NO_MOTION_THRESHOLD`) while a clip is open, clear `motion_detected`,
release the writer and zero `motion_counter`.  (The CLI of `main_2.py`
reads the thresholds as ints, defaults 10 and 20; a negative threshold
behaves like 0, so they are modelled as `Nat`.) -/
def step (mt nt : Nat) (s : MachineState) (motion : Bool) : MachineState × Decision :=
  if motion then
    let s1 := { s with motion_counter := s.motion_counter + 1, no_motion_counter := 0 }
    if s1.motion_counter > mt ∧ s1.motion_detected = false then
      ({ s1 with clip_number := s1.clip_number + 1
                 out := some (s1.clip_number + 1)
                 clipNums := s1.clipNums ++ [s1.clip_number + 1]
                 motion_detected := true }, Decision.start)
    else
      (s1, Decision.none)
  else
    let s1 := { s with no_motion_counter := s.no_motion_counter + 1 }
    if s1.no_motion_counter > nt ∧ s1.motion_detected = true then
      ({ s1 with motion_detected := false
                 out := Option.none
                 motion_counter := 0 }, Decision.stop)
    else
      (s1, Decision.none)

/-- Run the debounce logic over a list of per-frame motion booleans,
returning the final state and the list of decisions, one per frame. -/
def runD (mt nt : Nat) (s : MachineState) : List Bool → MachineState × List Decision
  | [] => (s, [])
  | b :: bs =>
      let p := step mt nt s b
      let r := runD mt nt p.1 bs
      (r.1, p.2 :: r.2)

/-- Final machine state after a list of motion booleans. -/
def run (mt nt : Nat) (s : MachineState) (bs : List Bool) : MachineState :=
  (runD mt nt s bs).1

/-- Decision trace over a list of motion booleans. -/
def decisions (mt nt : Nat) (s : MachineState) (bs : List Bool) : List Decision :=
  (runD mt nt s bs).2

/-- Definition `cntSince mt nt p` counts, over the run on input `p` from the initial
state, the motion-present frames `j` such that no `stop` decision is
emitted at any frame from `j` to the end of `p`: the cumulative number
of motion frames since the most recent `stop` (or since the start of the
session when no `stop` has occurred). -/
def cntSince (mt nt : Nat) (p : List Bool) : Nat :=
  let ds := decisions mt nt initState p
  (List.range p.length).countP
    (fun j => p.getD j false && (ds.drop j).all (fun d => !(d == Decision.stop)))

/-- Zero-padded decimal rendering of a clip number, embedding the Python
format `f\x7bclip_num:03d\x7d` of `main.py` line 46: pad with leading zeros
to width 3, render wider numbers unpadded. -/
def pad3 (n : Nat) : String :=
  if n < 10 then "00" ++ toString n
  else if n < 100 then "0" ++ toString n
  else toString n

/-- The clip-number part of the event-clip filename generated by
`create_new_writer` (`main.py` lines 45-47); the timestamp suffix is
external wall-clock state and is omitted. -/
def clipName (n : Nat) : String :=
  "clip_" ++ pad3 n

/-- State of the per-frame session loop of `main.py` lines 63-130:
the debounce machine state, `frame_count` (line 61), the current
reference image `first_gray_roi` (line 32, refreshed at line 125), the
list of frames written to the continuous writer `big_clip_out` (line
111) in write order, and the log of reference refreshes performed at
line 125, each as (frame_count at refresh, frame refreshed from). -/
structure SessionState : Type where
  machine : MachineState
  frame_count : Nat
  first_gray_roi : Nat
  bigLog : List Nat
  refreshLog : List (Nat × Nat)
deriving DecidableEq, Repr

/-- Initial session state: the reference image `r0` is seeded from the
first frame before the loop (`main.py` lines 27-32). -/
def initSession (r0 : Nat) : SessionState :=
  { machine := initState
    frame_count := 0
    first_gray_roi := r0
    bigLog := []
    refreshLog := [] }

/-- One iteration of the main loop of `main.py` (lines 63-130) on a
successfully read frame: increment `frame_count` (line 66), derive the
motion boolean from the current reference and the frame via the
abstracted evidence function `ev` (lines 69-85), run the debounce step
(lines 85-108), write the frame to the continuous writer (line 111),
and refresh the reference image from the current frame when
`frame_count % interval == 0` (lines 123-125; `interval` is hard-coded
to 300 at line 124, matching the default of the `interval` parameter of
`update_background` at line 54; `bg` abstracts `update_background`
composed with the ROI crop). -/
def sessionStep (ev : Nat → Nat → Bool) (bg : Nat → Nat) (interval mt nt : Nat)
    (s : SessionState) (frame : Nat) : SessionState :=
  let fc := s.frame_count + 1
  let motion := ev s.first_gray_roi frame
  let m := (step mt nt s.machine motion).1
  let doRefresh : Bool := fc % interval == 0
  { machine := m
    frame_count := fc
    first_gray_roi := if doRefresh then bg frame else s.first_gray_roi
    bigLog := s.bigLog ++ [frame]
    refreshLog := if doRefresh then s.refreshLog ++ [(fc, frame)] else s.refreshLog }

/-- Run the session loop over the list of successfully read frames (a
read failure, or the user quit key, ends the list). -/
def runSession (ev : Nat → Nat → Bool) (bg : Nat → Nat) (interval mt nt : Nat) :
    SessionState → List Nat → SessionState
  | s, [] => s
  | s, f :: fs => runSession ev bg interval mt nt (sessionStep ev bg interval mt nt s f) fs

/-- A writer as returned by `cv2.VideoWriter`: the clip number it was
created for, paired with whether the underlying sink actually opened
(`cv2.VideoWriter` returns an object even when the destination is
unwritable; the object then reports `isOpened() == False` and writes
are dropped). -/
structure Writer : Type where
  clipNum : Nat
  opened : Bool
deriving DecidableEq, Repr

/-- Machine state for the open-failure analysis: as `MachineState`, but
the current event-clip writer carries its open-success flag. -/
structure WMachineState : Type where
  clip_number : Nat
  motion_detected : Bool
  motion_counter : Nat
  no_motion_counter : Nat
  out : Option Writer
deriving DecidableEq, Repr

/-- Initial state for the open-failure analysis, `main.py` lines 35-38
and 60. -/
def initWState : WMachineState :=
  { clip_number := 1
    motion_detected := false
    motion_counter := 0
    no_motion_counter := 0
    out := Option.none }

/-- The debounce step of `main.py` lines 85-108 with the outcome of the
writer open made explicit: `ok` says whether the `cv2.VideoWriter`
constructed at line 93 actually opened its sink.  The source assigns
the returned object to `out` and sets `motion_detected = True`
unconditionally — no code inspects the open outcome, so the resulting
state does not depend on `ok` except through the stored writer. -/
def stepOpen (mt nt : Nat) (ok : Bool) (s : WMachineState) (motion : Bool) :
    WMachineState × Decision :=
  if motion then
    let s1 := { s with motion_counter := s.motion_counter + 1, no_motion_counter := 0 }
    if s1.motion_counter > mt ∧ s1.motion_detected = false then
      ({ s1 with clip_number := s1.clip_number + 1
                 out := some { clipNum := s1.clip_number + 1, opened := ok }
                 motion_detected := true }, Decision.start)
    else
      (s1, Decision.none)
  else
    let s1 := { s with no_motion_counter := s.no_motion_counter + 1 }
    if s1.no_motion_counter > nt ∧ s1.motion_detected = true then
      ({ s1 with motion_detected := false
                 out := Option.none
                 motion_counter := 0 }, Decision.stop)
    else
      (s1, Decision.none)

/-- Function `validate_roi` of `main_2.py` lines 74-83: clamp x into
[0, frame_width-1], y into [0, frame_height-1], then clamp width into
[1, frame_width - x] and height into [1, frame_height - y], using the
already-clamped x and y.  Arithmetic is over `Int`, matching Python
ints from `argparse` (which may be negative or arbitrarily large). -/
def validate_roi (roi : Int × Int × Int × Int) (frame_width frame_height : Int) :
    Int × Int × Int × Int :=
  let x := max 0 (min roi.1 (frame_width - 1))
  let y := max 0 (min roi.2.1 (frame_height - 1))
  let w := max 1 (min roi.2.2.1 (frame_width - x))
  let h := max 1 (min roi.2.2.2 (frame_height - y))
  (x, y, w, h)

end StreetCam

namespace StreetCam

/-! ## Helper lemmas about the debounce step and its runs -/

lemma run_nil (mt nt : Nat) (s : MachineState) : run mt nt s [] = s := rfl

lemma run_cons (mt nt : Nat) (s : MachineState) (b : Bool) (bs : List Bool) :
    run mt nt s (b :: bs) = run mt nt (step mt nt s b).1 bs := rfl

lemma step_detected_out (mt nt : Nat) (s : MachineState) (b : Bool)
    (h : s.motion_detected = s.out.isSome) :
    (step mt nt s b).1.motion_detected = (step mt nt s b).1.out.isSome := by
  cases b <;> simp only [step, reduceIte, Bool.false_eq_true, if_false, if_true] <;>
    split <;> simp_all

lemma run_detected_out (mt nt : Nat) :
    ∀ (bs : List Bool) (s : MachineState), s.motion_detected = s.out.isSome →
      (run mt nt s bs).motion_detected = (run mt nt s bs).out.isSome := by
  intro bs
  induction bs with
  | nil => intro s h; exact h
  | cons b bs ih =>
      intro s h
      rw [run_cons]
      exact ih _ (step_detected_out mt nt s b h)

lemma step_start_iff (mt nt : Nat) (s : MachineState) (b : Bool) :
    (step mt nt s b).2 = Decision.start ↔
      (b = true ∧ s.motion_counter + 1 > mt ∧ s.motion_detected = false) := by
  cases b <;> simp only [step, reduceIte, Bool.false_eq_true, if_false, if_true] <;>
    split <;> simp_all

lemma step_stop_iff (mt nt : Nat) (s : MachineState) (b : Bool) :
    (step mt nt s b).2 = Decision.stop ↔
      (b = false ∧ s.no_motion_counter + 1 > nt ∧ s.motion_detected = true) := by
  cases b <;> simp only [step, reduceIte, Bool.false_eq_true, if_false, if_true] <;>
    split <;> simp_all

lemma runD_cons (mt nt : Nat) (s : MachineState) (b : Bool) (bs : List Bool) :
    runD mt nt s (b :: bs) =
      ((runD mt nt (step mt nt s b).1 bs).1,
        (step mt nt s b).2 :: (runD mt nt (step mt nt s b).1 bs).2) := rfl

lemma step_clip_fields (mt nt : Nat) (s : MachineState) (b : Bool) :
    ((step mt nt s b).2 = Decision.start →
      (step mt nt s b).1.clipNums = s.clipNums ++ [s.clip_number + 1] ∧
      (step mt nt s b).1.clip_number = s.clip_number + 1) ∧
    ((step mt nt s b).2 ≠ Decision.start →
      (step mt nt s b).1.clipNums = s.clipNums ∧
      (step mt nt s b).1.clip_number = s.clip_number) := by
  cases b <;> simp only [step, reduceIte, Bool.false_eq_true, if_false, if_true] <;>
    split <;> simp_all

lemma runD_clipNums (mt nt : Nat) :
    ∀ (bs : List Bool) (s : MachineState),
      (runD mt nt s bs).1.clipNums =
        s.clipNums ++
          List.range' (s.clip_number + 1) ((runD mt nt s bs).2.count Decision.start) ∧
      (runD mt nt s bs).1.clip_number =
        s.clip_number + (runD mt nt s bs).2.count Decision.start := by
  intro bs
  induction bs with
  | nil => intro s; simp [runD]
  | cons b bs ih =>
      intro s
      rw [runD_cons]
      obtain ⟨ih1, ih2⟩ := ih (step mt nt s b).1
      by_cases hd : (step mt nt s b).2 = Decision.start
      · obtain ⟨h1, h2⟩ := (step_clip_fields mt nt s b).1 hd
        constructor
        · simp only [ih1, h1, h2, hd, List.count_cons_self, List.range'_succ,
            List.append_assoc, List.singleton_append]
        · simp only [ih2, h2, hd, List.count_cons_self]
          omega
      · obtain ⟨h1, h2⟩ := (step_clip_fields mt nt s b).2 hd
        have hc : ((step mt nt s b).2 :: (runD mt nt (step mt nt s b).1 bs).2).count
            Decision.start = (runD mt nt (step mt nt s b).1 bs).2.count Decision.start := by
          rw [List.count_cons_of_ne]
          exact fun h => hd h.symm
        constructor
        · simp only [hc, ih1, h1, h2]
        · simp only [hc, ih2, h2]

lemma runD_append (mt nt : Nat) :
    ∀ (p q : List Bool) (s : MachineState),
      runD mt nt s (p ++ q) =
        ((runD mt nt (runD mt nt s p).1 q).1,
          (runD mt nt s p).2 ++ (runD mt nt (runD mt nt s p).1 q).2) := by
  intro p
  induction p with
  | nil => intro q s; simp [runD]
  | cons b p ih =>
      intro q s
      simp only [List.cons_append, runD_cons, ih]

lemma run_append_singleton (mt nt : Nat) (p : List Bool) (b : Bool) :
    run mt nt initState (p ++ [b]) = (step mt nt (run mt nt initState p) b).1 := by
  simp [run, runD_append, runD_cons, runD]

lemma decisions_append_singleton (mt nt : Nat) (p : List Bool) (b : Bool) :
    decisions mt nt initState (p ++ [b]) =
      decisions mt nt initState p ++ [(step mt nt (run mt nt initState p) b).2] := by
  simp [decisions, run, runD_append, runD_cons, runD]

lemma decisions_length (mt nt : Nat) :
    ∀ (bs : List Bool) (s : MachineState), (runD mt nt s bs).2.length = bs.length := by
  intro bs
  induction bs with
  | nil => intro s; rfl
  | cons b bs ih => intro s; rw [runD_cons]; simp [ih]

lemma step_counter_motion (mt nt : Nat) (s : MachineState) :
    (step mt nt s true).1.motion_counter = s.motion_counter + 1 := by
  simp only [step, reduceIte, if_true]
  split <;> rfl

lemma step_counter_quiet (mt nt : Nat) (s : MachineState) :
    (step mt nt s false).1.motion_counter =
      if (step mt nt s false).2 = Decision.stop then 0 else s.motion_counter := by
  simp only [step, reduceIte, Bool.false_eq_true, if_false]
  split <;> simp_all

lemma step_idle_counter_le (mt nt : Nat) (s : MachineState) (b : Bool)
    (h : s.motion_detected = false → s.motion_counter ≤ mt) :
    (step mt nt s b).1.motion_detected = false →
      (step mt nt s b).1.motion_counter ≤ mt := by
  cases b
  · simp only [step, reduceIte, Bool.false_eq_true, if_false]
    split
    · intro _
      simp
    · simpa using h
  · simp only [step, reduceIte, if_true]
    split
    · simp
    · intro hdf
      rename_i hcond
      have hdf' : s.motion_detected = false := hdf
      simp only [hdf', and_true] at hcond
      show s.motion_counter + 1 ≤ mt
      omega

lemma run_idle_counter_le (mt nt : Nat) :
    ∀ (bs : List Bool) (s : MachineState),
      (s.motion_detected = false → s.motion_counter ≤ mt) →
      ((run mt nt s bs).motion_detected = false →
        (run mt nt s bs).motion_counter ≤ mt) := by
  intro bs
  induction bs with
  | nil => intro s h; exact h
  | cons b bs ih =>
      intro s h
      rw [run_cons]
      exact ih _ (step_idle_counter_le mt nt s b h)

/-- The bridge between the code's `motion_counter` and the trace-level
count: after any input prefix, `motion_counter` equals the number of
motion-present frames since the most recent `stop` decision. -/
lemma run_counter_eq_cntSince (mt nt : Nat) (p : List Bool) :
    (run mt nt initState p).motion_counter = cntSince mt nt p := by
  induction p using List.reverseRecOn with
  | nil => rfl
  | append_singleton p b ih =>
      have hlen : (decisions mt nt initState p).length = p.length :=
        decisions_length mt nt p initState
      have hds := decisions_append_singleton mt nt p b
      rw [run_append_singleton]
      by_cases hd : (step mt nt (run mt nt initState p) b).2 = Decision.stop
      · have hb : b = false := ((step_stop_iff mt nt _ b).mp hd).1
        subst hb
        rw [step_counter_quiet, if_pos hd]
        have hz : cntSince mt nt (p ++ [false]) = 0 := by
          simp only [cntSince]
          rw [hds, hd, List.countP_eq_zero]
          intro j hj
          have hjlt : j < p.length + 1 := by simpa using List.mem_range.mp hj
          have hj' : j ≤ (decisions mt nt initState p).length := by omega
          rw [List.drop_append_of_le_length hj', List.all_append]
          simp
        rw [hz]
      · have hcnt : cntSince mt nt (p ++ [b]) =
            cntSince mt nt p + (if b then 1 else 0) := by
          simp only [cntSince]
          rw [hds, show (p ++ [b]).length = p.length + 1 from by simp,
            List.range_succ, List.countP_append]
          congr 1
          · apply List.countP_congr
            intro j hj
            have hjlt : j < p.length := List.mem_range.mp hj
            have hj' : j ≤ (decisions mt nt initState p).length := by omega
            rw [List.getD_append _ _ _ _ hjlt, List.drop_append_of_le_length hj',
              List.all_append]
            simp [hd]
          · have hdrop : (decisions mt nt initState p ++
                [(step mt nt (run mt nt initState p) b).2]).drop p.length =
                  [(step mt nt (run mt nt initState p) b).2] := by
              rw [← hlen, List.drop_left]
            simp [List.countP_cons, hdrop, List.getD_eq_getElem?_getD,
              List.getElem?_concat_length, hd]
        rw [hcnt]
        cases b
        · rw [step_counter_quiet, if_neg hd, ih]
          simp
        · rw [step_counter_motion, ih]
          simp

lemma runSession_cons (ev : Nat → Nat → Bool) (bg : Nat → Nat) (interval mt nt : Nat)
    (s : SessionState) (f : Nat) (fs : List Nat) :
    runSession ev bg interval mt nt s (f :: fs) =
      runSession ev bg interval mt nt (sessionStep ev bg interval mt nt s f) fs := rfl

lemma runSession_refresh (ev : Nat → Nat → Bool) (bg : Nat → Nat) (interval mt nt : Nat) :
    ∀ (fs : List Nat) (s : SessionState),
      (runSession ev bg interval mt nt s fs).refreshLog =
        s.refreshLog ++
          (List.enumFrom (s.frame_count + 1) fs).filter (fun p => p.1 % interval == 0) ∧
      (runSession ev bg interval mt nt s fs).first_gray_roi =
        ((List.enumFrom (s.frame_count + 1) fs).filter
          (fun p => p.1 % interval == 0)).foldl (fun _ p => bg p.2) s.first_gray_roi := by
  intro fs
  induction fs with
  | nil => intro s; simp [runSession, List.enumFrom]
  | cons f fs ih =>
      intro s
      rw [runSession_cons]
      obtain ⟨ih1, ih2⟩ := ih (sessionStep ev bg interval mt nt s f)
      by_cases hc : ((s.frame_count + 1) % interval == 0) = true
      · constructor
        · rw [ih1]
          simp [sessionStep, List.enumFrom, List.filter_cons, hc, List.append_assoc]
        · rw [ih2]
          simp [sessionStep, List.enumFrom, List.filter_cons, hc]
      · constructor
        · rw [ih1]
          simp [sessionStep, List.enumFrom, List.filter_cons, hc]
        · rw [ih2]
          simp [sessionStep, List.enumFrom, List.filter_cons, hc]

/-! ## Claim theorems and witnesses -/

/-- Claim C3: With thresholds 2 and 2, input `[F,F,T,T,T,F,F,F]` produces
exactly `[None,None,None,None,Start,None,None,Stop]`: `Start` on the
third consecutive motion frame (run 3 > 2) and `Stop` on the third
consecutive quiet frame after recording began; exactly 2 qualifying
frames never suffice because the comparisons are strict. -/
theorem decisions_example_FFTTTFFF :
    decisions 2 2 initState
      [false, false, true, true, true, false, false, false] =
      [Decision.none, Decision.none, Decision.none, Decision.none,
       Decision.start, Decision.none, Decision.none, Decision.stop] := by
  decide

/-- Claim C1, counterexample: With `motion_threshold = 2`, the input
`[T, T, F, T]` emits `start` at the last frame, yet the frames
immediately preceding it are not an uninterrupted motion run of length
≥ 3: the only candidate runs ending at that frame inside the 4-frame
history are the last 3 frames `[T, F, T]` and all 4 frames
`[T, T, F, T]`, and neither is all-motion.  The quiet frame did not
reset `motion_counter` (no `stop` had fired), so the cumulative count
reached 3 without 3 consecutive motion frames. -/
theorem start_without_consecutive_run :
    (decisions 2 2 initState [true, true, false, true]).getD 3 Decision.none =
      Decision.start ∧
    ([true, true, false, true].drop 1).all id = false ∧
    ([true, true, false, true].drop 0).all id = false := by
  decide

/-- Claim C1, amended: `start` is emitted at a frame if and only if the
state reached on the preceding prefix is `Idle`, the frame itself is
motion-present, and the cumulative number of motion-present frames
since the most recent `stop` decision (or since the start of the
session), counting the current frame, is exactly `motion_threshold + 1`
— cumulative, not consecutive: quiet frames do not interrupt the count
unless a `stop` fires. -/
theorem start_iff_cumulative_motion (mt nt : Nat) (p : List Bool) (b : Bool) :
    (step mt nt (run mt nt initState p) b).2 = Decision.start ↔
      ((run mt nt initState p).motion_detected = false ∧ b = true ∧
        cntSince mt nt p + 1 = mt + 1) := by
  rw [step_start_iff]
  have hbr := run_counter_eq_cntSince mt nt p
  constructor
  · rintro ⟨hb, hgt, hidle⟩
    have hle := run_idle_counter_le mt nt p initState
      (fun _ => Nat.zero_le mt) hidle
    exact ⟨hidle, hb, by omega⟩
  · rintro ⟨hidle, hb, hcnt⟩
    exact ⟨hb, by omega, hidle⟩

/-- Claim C2, counterexample: With the default thresholds 10 and 20, after
the two-frame input `[T, F]` both counters are non-zero: the quiet frame
incremented `no_motion_counter` but did not reset `motion_counter`
(the source resets it only when a `stop` fires, `main.py` line 108), so
the claimed mutual-exclusion invariant fails. -/
theorem counters_both_nonzero_after_TF :
    (run 10 20 initState [true, false]).motion_counter = 1 ∧
    (run 10 20 initState [true, false]).no_motion_counter = 1 := by
  decide

/-- Claim C2, amended: Per-frame counter update as the code performs it:
on a motion frame `motion_counter` increments and `no_motion_counter`
resets to 0; on a quiet frame `no_motion_counter` increments while
`motion_counter` is reset to 0 only when the step emits `stop`, and is
left unchanged otherwise. -/
theorem step_counter_update (mt nt : Nat) (s : MachineState) (b : Bool) :
    (b = true →
      (step mt nt s b).1.motion_counter = s.motion_counter + 1 ∧
      (step mt nt s b).1.no_motion_counter = 0) ∧
    (b = false →
      (step mt nt s b).1.no_motion_counter = s.no_motion_counter + 1 ∧
      (step mt nt s b).1.motion_counter =
        (if (step mt nt s b).2 = Decision.stop then 0 else s.motion_counter)) := by
  cases b <;> simp only [step, reduceIte, Bool.false_eq_true, if_false, if_true] <;>
    split <;> simp_all

/-- Witness for `step_counter_update` at a concrete input. -/
theorem step_counter_update_witness :
    (step 10 20 initState true).1.motion_counter = initState.motion_counter + 1 ∧
    (step 10 20 initState true).1.no_motion_counter = 0 :=
  (step_counter_update 10 20 initState true).1 rfl

/-- Claim C4: After any input sequence, the recording flag and the event
clip handle agree: `motion_detected` is `true` exactly when `out` holds
a live writer, so the machine is never `Recording` without a sink and
never `Idle` with a sink still open — and, `out` being a single
`Option`, at most one event clip is open at any point. -/
theorem detected_iff_clip_open (mt nt : Nat) (bs : List Bool) :
    (run mt nt initState bs).motion_detected =
      (run mt nt initState bs).out.isSome :=
  run_detected_out mt nt bs initState rfl

/-- Every frame appended to the continuous log, relative to any
starting state. -/
lemma runSession_bigLog (ev : Nat → Nat → Bool) (bg : Nat → Nat) (interval mt nt : Nat) :
    ∀ (fs : List Nat) (s : SessionState),
      (runSession ev bg interval mt nt s fs).bigLog = s.bigLog ++ fs := by
  intro fs
  induction fs with
  | nil => intro s; simp [runSession]
  | cons f fs ih =>
      intro s
      rw [runSession, ih]
      simp [sessionStep]

/-- Claim C5: The continuous (full-session) sink receives every
successfully read frame exactly once and in capture order, for every
motion-evidence function, background function, refresh interval,
thresholds and initial reference: the write log of `big_clip_out`
equals the input frame list. -/
theorem continuous_sink_every_frame_once (ev : Nat → Nat → Bool) (bg : Nat → Nat)
    (interval mt nt r0 : Nat) (fs : List Nat) :
    (runSession ev bg interval mt nt (initSession r0) fs).bigLog = fs := by
  simpa [initSession] using runSession_bigLog ev bg interval mt nt fs (initSession r0)

/-- Claim C6: No double-start and no double-stop: at every frame of every
input sequence (the frame after an arbitrary prefix `p`), a `start`
decision is only emitted when the state reached on `p` is `Idle`
(`motion_detected = false`) and a `stop` only when it is `Recording`
(`motion_detected = true`). -/
theorem no_double_start_no_double_stop (mt nt : Nat) (p : List Bool) (b : Bool) :
    ((step mt nt (run mt nt initState p) b).2 = Decision.start →
      (run mt nt initState p).motion_detected = false) ∧
    ((step mt nt (run mt nt initState p) b).2 = Decision.stop →
      (run mt nt initState p).motion_detected = true) := by
  constructor
  · intro h
    exact ((step_start_iff mt nt _ b).mp h).2.2
  · intro h
    exact ((step_stop_iff mt nt _ b).mp h).2.2

/-- Witness for `no_double_start_no_double_stop` at a concrete input:
with threshold 0 the first motion frame emits `start`, and the state
before it is `Idle`. -/
theorem no_double_start_witness :
    (run 0 0 initState []).motion_detected = false :=
  (no_double_start_no_double_stop 0 0 [] true).1 (by decide)

/-- Claim C7, counterexample: With `motion_threshold = 0`, a motion frame
from the initial state fires `start`; when the writer open fails
(`ok = false`) the code still stores the dead writer and enters
`Recording` (`motion_detected = true`): it does not revert to `Idle`,
because no code inspects the open outcome. -/
theorem ghost_recording_on_failed_open :
    (stepOpen 0 20 false initWState true).2 = Decision.start ∧
    (stepOpen 0 20 false initWState true).1.motion_detected = true ∧
    (stepOpen 0 20 false initWState true).1.out =
      some { clipNum := 2, opened := false } := by
  decide

/-- Claim C7, amended: What the code actually does on a `start` whose
writer open fails: it advances the clip number once, stores the (dead)
writer and enters `Recording` regardless of the open outcome; and from
any `Recording` state no further `start` can fire, so the clip number
is not advanced again while the ghost state persists (the session loop
itself continues — the step is total). -/
theorem failed_open_no_revert (mt nt : Nat) (ok : Bool) (s : WMachineState) (b : Bool) :
    ((stepOpen mt nt ok s b).2 = Decision.start →
      (stepOpen mt nt ok s b).1.motion_detected = true ∧
      (stepOpen mt nt ok s b).1.out =
        some { clipNum := s.clip_number + 1, opened := ok } ∧
      (stepOpen mt nt ok s b).1.clip_number = s.clip_number + 1) ∧
    (s.motion_detected = true →
      (stepOpen mt nt ok s b).2 ≠ Decision.start ∧
      (stepOpen mt nt ok s b).1.clip_number = s.clip_number) := by
  cases b <;> simp only [stepOpen, reduceIte, Bool.false_eq_true, if_false, if_true] <;>
    split <;> simp_all

/-- Witness for `failed_open_no_revert` at a concrete input. -/
theorem failed_open_no_revert_witness :
    (stepOpen 0 20 false initWState true).1.motion_detected = true ∧
    (stepOpen 0 20 false initWState true).1.out =
      some { clipNum := initWState.clip_number + 1, opened := false } ∧
    (stepOpen 0 20 false initWState true).1.clip_number = initWState.clip_number + 1 :=
  (failed_open_no_revert 0 20 false initWState true).1 (by decide)

/-- Claim C8, counterexample: The ROI (1000, 1000, 200, 200) lies far
outside a 640×480 frame, yet `validate_roi` does not reject it: it
silently clamps it to (639, 479, 1, 1) and the session proceeds — no
`ConfigError` path exists in the code (and the thresholds are never
validated at all). -/
theorem out_of_bounds_roi_clamped_not_rejected :
    validate_roi (1000, 1000, 200, 200) 640 480 = (639, 479, 1, 1) := by
  decide

/-- Claim C8, amended: `validate_roi` accepts every configuration: for
any frame size with positive width and height it maps an arbitrary
(possibly out-of-bounds) ROI to one satisfying the in-bounds invariant
`0 ≤ x`, `x + w ≤ frame_width`, `w ≥ 1` (and symmetrically for y, h),
instead of rejecting it. -/
theorem validate_roi_total_clamp (roi : Int × Int × Int × Int) (W H : Int)
    (hW : 1 ≤ W) (hH : 1 ≤ H) :
    0 ≤ (validate_roi roi W H).1 ∧
    (validate_roi roi W H).1 + (validate_roi roi W H).2.2.1 ≤ W ∧
    1 ≤ (validate_roi roi W H).2.2.1 ∧
    0 ≤ (validate_roi roi W H).2.1 ∧
    (validate_roi roi W H).2.1 + (validate_roi roi W H).2.2.2 ≤ H ∧
    1 ≤ (validate_roi roi W H).2.2.2 := by
  obtain ⟨x, y, w, h⟩ := roi
  simp only [validate_roi]
  omega

/-- Claim C9: The reference image is replaced exactly on the frames whose
running index satisfies `frame_count % interval == 0`; the stored
reference after the run is the freshly derived baseline of the frame at
the most recent refresh (a fold that discards the previous reference —
no blending); and with interval 3 a 7-frame session refreshes exactly
twice, after frame 3 and frame 6, leaving the baseline of frame 6. -/
theorem reference_refresh_on_interval (ev : Nat → Nat → Bool) (bg : Nat → Nat)
    (interval mt nt r0 : Nat) (fs : List Nat) :
    (runSession ev bg interval mt nt (initSession r0) fs).refreshLog =
      (List.enumFrom 1 fs).filter (fun p => p.1 % interval == 0) ∧
    (runSession ev bg interval mt nt (initSession r0) fs).first_gray_roi =
      ((runSession ev bg interval mt nt (initSession r0) fs).refreshLog).foldl
        (fun _ p => bg p.2) r0 ∧
    ((runSession ev bg 3 mt nt (initSession r0) [1, 2, 3, 4, 5, 6, 7]).refreshLog).map
      Prod.fst = [3, 6] ∧
    (runSession ev bg 3 mt nt (initSession r0) [1, 2, 3, 4, 5, 6, 7]).first_gray_roi =
      bg 6 := by
  obtain ⟨h1, h2⟩ := runSession_refresh ev bg interval mt nt fs (initSession r0)
  obtain ⟨g1, g2⟩ := runSession_refresh ev bg 3 mt nt [1, 2, 3, 4, 5, 6, 7] (initSession r0)
  refine ⟨?_, ?_, ?_, ?_⟩
  · simpa [initSession] using h1
  · rw [h2, h1]
    simp [initSession]
  · rw [g1]
    simp only [initSession, List.nil_append]
    decide
  · rw [g2]
    simp only [initSession]
    rfl

/-- Claim C10: The list of clip numbers handed to `create_new_writer`
over any run is exactly `[2, 3, ..., numberOfStarts + 1]`: the counter
is initialised to 1 and incremented before the first name is generated,
so the first clip is number 2 and each later `start` adds exactly 1;
number 1 is never used, and the generated names are zero-padded
(`clipName 2 = "clip_002"`). -/
theorem first_clip_number_is_two (mt nt : Nat) (bs : List Bool) :
    (run mt nt initState bs).clipNums =
      List.range' 2 ((decisions mt nt initState bs).count Decision.start) ∧
    ((run mt nt initState bs).clipNums).count 1 = 0 ∧
    clipName 2 = "clip_002" := by
  obtain ⟨h1, h2⟩ := runD_clipNums mt nt bs initState
  have hmain : (run mt nt initState bs).clipNums =
      List.range' 2 ((decisions mt nt initState bs).count Decision.start) := by
    simpa [initState, run, decisions] using h1
  refine ⟨hmain, ?_, by decide⟩
  rw [hmain, List.count_eq_zero]
  intro hmem
  have := List.mem_range'_1.mp hmem
  omega

/-- Witness for `validate_roi_total_clamp` at a concrete input. -/
theorem validate_roi_total_clamp_witness :
    (1 : Int) ≤ 640 ∧
    (0 ≤ (validate_roi (1000, 1000, 200, 200) 640 480).1 ∧
      (validate_roi (1000, 1000, 200, 200) 640 480).1 +
        (validate_roi (1000, 1000, 200, 200) 640 480).2.2.1 ≤ 640 ∧
      1 ≤ (validate_roi (1000, 1000, 200, 200) 640 480).2.2.1 ∧
      0 ≤ (validate_roi (1000, 1000, 200, 200) 640 480).2.1 ∧
      (validate_roi (1000, 1000, 200, 200) 640 480).2.1 +
        (validate_roi (1000, 1000, 200, 200) 640 480).2.2.2 ≤ 480 ∧
      1 ≤ (validate_roi (1000, 1000, 200, 200) 640 480).2.2.2) :=
  ⟨by decide, validate_roi_total_clamp (1000, 1000, 200, 200) 640 480
    (by decide) (by decide)⟩

end StreetCam
